import Mathlib

/-!
Verification of the Pizza Home backend (pizza_home_backend.py) against its
natural-language specification.

The development shallowly embeds the pure decision logic of the source file:

* `match_menu_item`   - the menu resolver (difflib-based fuzzy matching plus
  a case-insensitive substring fallback), including a faithful model of
  CPython's `difflib.SequenceMatcher.ratio` / `difflib.get_close_matches`
  for junk-free inputs shorter than 200 characters (so autojunk is inert).
* `calculate_delivery_charge` - the zone resolver.
* `persist_order_to_db`, `update_order_payment_status`, `lookupOrder` - the
  order store, with the sqlite table modelled as a list of rows keyed by
  `order_id` (INSERT on an existing primary key fails, UPDATE with no
  matching row is a silent no-op, SELECT returns the first matching row).
* `verify_order`, `http_create_order`, `notify_rider` - the admin
  verification path, the POS create endpoint and the rider notification
  snapshot.
* `whatsapp_webhook` - the conversation router: the elif keyword cascade,
  per-sender sessions, cart mutation and order creation.  Outbound message
  texts are abstracted to `Reply` tags (one tag per distinct send site);
  all branching and state mutation follows the source.  Uncaught Python
  exceptions (KeyError on a missing session key, IntegrityError from the
  insert) surface as the `err` field of the result.

Nondeterministic inputs of the source (uuid4 hex for order ids,
`datetime.utcnow()`) are passed in as explicit `fresh`/`now` arguments.
Ratios are represented exactly as pairs (numerator, denominator); for the
string lengths involved (< 200) the float comparisons performed by
`get_close_matches` agree with exact rational comparison, since distinct
ratios differ by at least 1/(len_a+len_b)^2 which is far above double
rounding error.
-/

namespace PizzaHome

/-! ### Character and string helpers (ASCII, as used by the source data) -/

/-- Lower-case a character list, mirroring Python `str.lower` on ASCII. -/
def lowerL (t : List Char) : List Char := t.map Char.toLower

/-- `isPrefixL n h` is Python `h.startswith(n)`. -/
def isPrefixL : List Char → List Char → Bool
  | [], _ => true
  | _ :: _, [] => false
  | a :: x, b :: y => a == b && isPrefixL x y

/-- `substrIn n h` is Python `n in h` (contiguous substring containment). -/
def substrIn (needle : List Char) : List Char → Bool
  | [] => needle.isEmpty
  | c :: t => isPrefixL needle (c :: t) || substrIn needle t

/-- Python `str.strip` whitespace predicate (ASCII whitespace). -/
def isSpaceChar (c : Char) : Bool :=
  c == ' ' || c == '\t' || c == '\n' || c == '\r' || c == '\x0b' || c == '\x0c'

/-- Python `str.strip()`. -/
def stripL (t : List Char) : List Char :=
  ((t.dropWhile isSpaceChar).reverse.dropWhile isSpaceChar).reverse

/-- Python string `<` (lexicographic by code point). -/
def lexLt : List Char → List Char → Bool
  | [], [] => false
  | [], _ :: _ => true
  | _ :: _, [] => false
  | a :: x, b :: y => if a.val < b.val then true else if b.val < a.val then false else lexLt x y

/-! ### difflib.SequenceMatcher (no junk, autojunk inert for strings < 200 chars)

`find_longest_match` runs the standard j2len dynamic programme row by row;
the first strictly-larger run found (scanning i ascending, then j ascending)
becomes the best block, exactly as in CPython.  The two junk-free extension
loops of CPython are reproduced; the popular/junk extension loops can never
fire because the junk set is empty for our inputs. -/

/-- Force a `Nat` to a literal before continuing (the pattern match
evaluates the scrutinee and substitutes the value, which keeps kernel
reduction of the dynamic programme shallow). -/
def natCase {α : Type} (n : Nat) (f : Nat → α) : α :=
  match n with
  | 0 => f 0
  | Nat.succ m => f (Nat.succ m)

/-- One DP row: CPython's `newj2len` for the row of `a[i] = ai`,
represented as a dense list over all positions of `b` (absent keys are 0).
`j` is the current position in `b`, `ps` walks `0 :: prev` so that its head
is `prev[j-1]`, and `acc` accumulates the row in reverse with every entry
forced to a literal. -/
def dlRowGo (ai : Char) (blo bhi : Nat) : Nat → List Char → List Nat → List Nat → List Nat
  | _, [], _, acc => acc.reverse
  | j, c :: cs, ps, acc =>
    natCase (if blo ≤ j ∧ j < bhi ∧ c == ai then ps.headD 0 + 1 else 0) (fun k =>
      dlRowGo ai blo bhi (j + 1) cs ps.tail (k :: acc))

/-- Scan a finished row in ascending `j`, updating the running best
`(besti, bestj, bestsize)` on strictly larger run lengths, as CPython's
inner loop does. -/
def dlBestGo (i : Nat) : Nat → List Nat → Nat × Nat × Nat → Nat × Nat × Nat
  | _, [], best => best
  | j, k :: ks, (bi, bj, bs) =>
    if k > bs then dlBestGo i (j + 1) ks (i + 1 - k, j + 1 - k, k)
    else dlBestGo i (j + 1) ks (bi, bj, bs)

/-- The j2len dynamic programme of `find_longest_match` over rows
`i ∈ [alo, ahi)`; the first argument of the recursion is the current row
index, the second the number of rows still to process. -/
def dlDPGo (a b : List Char) (blo bhi : Nat) : Nat → Nat → List Nat → Nat × Nat × Nat → Nat × Nat × Nat
  | _, 0, _, best => best
  | i, n + 1, prev, best =>
    dlDPGo a b blo bhi (i + 1) n (dlRowGo (a.getD i ' ') blo bhi 0 b (0 :: prev) [])
      (dlBestGo i 0 (dlRowGo (a.getD i ' ') blo bhi 0 b (0 :: prev) []) best)

/-- The DP entry point (initial row all zeros, initial best
`(alo, blo, 0)`). -/
def dlDP (a b : List Char) (alo ahi blo bhi : Nat) : Nat × Nat × Nat :=
  dlDPGo a b blo bhi alo (ahi - alo) (List.replicate b.length 0) (alo, blo, 0)

/-- CPython's first extension loop (extend the best block downwards while the
preceding characters match); fuel-based, the fuel bounds the loop count. -/
def extLo (a b : List Char) (alo blo : Nat) : Nat → Nat × Nat × Nat → Nat × Nat × Nat
  | 0, st => st
  | n + 1, (bi, bj, bs) =>
    if alo < bi ∧ blo < bj ∧ a.getD (bi - 1) ' ' == b.getD (bj - 1) ' ' then
      extLo a b alo blo n (bi - 1, bj - 1, bs + 1)
    else (bi, bj, bs)

/-- CPython's second extension loop (extend the best block upwards). -/
def extHi (a b : List Char) (ahi bhi : Nat) : Nat → Nat × Nat × Nat → Nat × Nat × Nat
  | 0, st => st
  | n + 1, (bi, bj, bs) =>
    if bi + bs < ahi ∧ bj + bs < bhi ∧ a.getD (bi + bs) ' ' == b.getD (bj + bs) ' ' then
      extHi a b ahi bhi n (bi, bj, bs + 1)
    else (bi, bj, bs)

/-- `SequenceMatcher.find_longest_match` on the window
`a[alo:ahi]`, `b[blo:bhi]`. -/
def find_longest_match (a b : List Char) (alo ahi blo bhi : Nat) : Nat × Nat × Nat :=
  extHi a b ahi bhi (ahi + bhi) (extLo a b alo blo (ahi + bhi) (dlDP a b alo ahi blo bhi))

/-- Total size of all matching blocks (`sum(block.size)` over
`get_matching_blocks`): recurse left and right of each longest match exactly
as the CPython queue does; the traversal order does not affect the sum.
Fuel bounds the recursion depth (each recursive window is strictly
smaller in the `a` direction). -/
def matchSum (a b : List Char) : Nat → Nat × Nat × Nat × Nat → Nat
  | 0, _ => 0
  | n + 1, (alo, ahi, blo, bhi) =>
    natCase (find_longest_match a b alo ahi blo bhi).1 (fun i =>
      natCase (find_longest_match a b alo ahi blo bhi).2.1 (fun j =>
        natCase (find_longest_match a b alo ahi blo bhi).2.2 (fun k =>
          if k == 0 then 0
          else
            k + (if alo < i ∧ blo < j then matchSum a b n (alo, i, blo, j) else 0)
              + (if i + k < ahi ∧ j + k < bhi then matchSum a b n (i + k, ahi, j + k, bhi) else 0))))

/-- `SequenceMatcher(None, a, b).ratio()` represented exactly as the pair
`(2 * matches, len(a) + len(b))`; the all-empty case (`ratio() == 1.0`)
is represented as `(1, 1)`. -/
def ratioPair (a b : List Char) : Nat × Nat :=
  let d := a.length + b.length
  if d == 0 then (1, 1)
  else natCase (matchSum a b (a.length + 1) (0, a.length, 0, b.length)) (fun m => (2 * m, d))

/-- Exact comparison `r > s` of two ratio pairs. -/
def ratGtB (r s : Nat × Nat) : Bool := r.1 * s.2 > s.1 * r.2

/-- Exact comparison `r = s` of two ratio pairs. -/
def ratEqB (r s : Nat × Nat) : Bool := r.1 * s.2 == s.1 * r.2

/-- `difflib.get_close_matches(word, names, n=1, cutoff=0.5)`.
The quick-ratio gates of CPython are upper bounds of `ratio()` and hence
redundant for the pass/fail decision; `heapq.nlargest(1, [(score, x), ...])`
is the maximum under lexicographic tuple order (score first, then the
candidate string), keeping the earliest entry on full ties. -/
def get_close_matches1 (word : List Char) (names : List (List Char)) : Option (List Char) :=
  (names.foldl
    (fun best x =>
      natCase (ratioPair x word).1 (fun rn =>
        natCase (ratioPair x word).2 (fun rd =>
          if 2 * rn ≥ rd then
            match best with
            | none => some (x, (rn, rd))
            | some (bx, br) =>
              if ratGtB (rn, rd) br || (ratEqB (rn, rd) br && lexLt bx x) then some (x, (rn, rd))
              else some (bx, br)
          else best)))
    none).map (·.1)

/-! ### Menu catalog and the menu resolver `match_menu_item` -/

/-- A catalog entry: `name` and the ordered `prices` table
(Python dict preserves insertion order). -/
structure MenuItem where
  name : String
  prices : List (String × Nat)
deriving DecidableEq

/-- The default menu shipped in the source (`menu` global). -/
def menuItems : List MenuItem :=
  [⟨"Chicken Tikka Pizza", [("Small", 350), ("Medium", 650), ("Large", 950)]⟩,
   ⟨"Pepperoni Pizza", [("Small", 400), ("Medium", 700), ("Large", 1000)]⟩,
   ⟨"Margherita Pizza", [("Small", 300), ("Medium", 550), ("Large", 800)]⟩,
   ⟨"Fries", [("OneSize", 120)]⟩,
   ⟨"Pepsi 1.5L", [("OneSize", 250)]⟩]

/-- The size-token scan list, in the exact order the source iterates it. -/
def sizeTokens : List String :=
  ["Large", "large", "L", "l", "Medium", "medium", "M", "m", "Small", "small", "S", "s"]

/-- Python `s.capitalize()` (first char upper, rest lower). -/
def capitalizeL : List Char → List Char
  | [] => []
  | c :: t => c.toUpper :: t.map Char.toLower

/-- `s.capitalize() if len(s) > 1 else s.upper()`. -/
def normalizeSize (s : String) : String :=
  if s.data.length > 1 then ⟨capitalizeL s.data⟩ else ⟨s.data.map Char.toUpper⟩

/-- The size-detection loop of `match_menu_item`: first token of
`sizeTokens` occurring as a substring of the (stripped) text wins. -/
def detectSize (t : List Char) : Option String :=
  (sizeTokens.find? (fun s => substrIn s.data t)).map normalizeSize

/-- Dictionary lookup `prices[k]` / `k in prices`. -/
def assocPrice (prices : List (String × Nat)) (k : String) : Option Nat :=
  (prices.find? (fun p => p.1 == k)).map (·.2)

/-- The fuzzy pass: `difflib.get_close_matches(text, names, n=1, cutoff=0.5)`
followed by the linear scan recovering the item with the returned name. -/
def fuzzyPass (t : List Char) : Option MenuItem :=
  (get_close_matches1 t (menuItems.map (fun it => it.name.data))).bind
    (fun nm => menuItems.find? (fun it => it.name.data == nm))

/-- Price selection when a size token was detected: requested size, then
`OneSize`, then `Medium`, then the first price entry. -/
def resolveWithSize (it : MenuItem) (sz : String) : Option (MenuItem × Nat × String) :=
  match assocPrice it.prices sz with
  | some p => some (it, p, sz)
  | none =>
    match assocPrice it.prices "OneSize" with
    | some p => some (it, p, "OneSize")
    | none =>
      match assocPrice it.prices "Medium" with
      | some p => some (it, p, "Medium")
      | none =>
        match it.prices with
        | (k, v) :: _ => some (it, v, k)
        | [] => none

/-- Price selection when no size token was detected: `Medium`, then
`OneSize`, then the first price entry. -/
def resolveNoSize (it : MenuItem) : Option (MenuItem × Nat × String) :=
  match assocPrice it.prices "Medium" with
  | some p => some (it, p, "Medium")
  | none =>
    match assocPrice it.prices "OneSize" with
    | some p => some (it, p, "OneSize")
    | none =>
      match it.prices with
      | (k, v) :: _ => some (it, v, k)
      | [] => none

/-- Price selection in the substring fallback block of the source
(`Medium`, then `OneSize`, then first) - it never consults the detected
size. `[]` is unreachable for the shipped menu (every item has a price). -/
def resolveFallback (it : MenuItem) : Option (MenuItem × Nat × String) :=
  match assocPrice it.prices "Medium" with
  | some p => some (it, p, "Medium")
  | none =>
    match assocPrice it.prices "OneSize" with
    | some p => some (it, p, "OneSize")
    | none =>
      match it.prices with
      | (k, v) :: _ => some (it, v, k)
      | [] => none

/-- `match_menu_item(text)`: returns `(item, price, size_key)` or `none`. -/
def match_menu_item (text : String) : Option (MenuItem × Nat × String) :=
  let t := stripL text.data
  let size := detectSize t
  match fuzzyPass t with
  | some it =>
    match size with
    | some sz => resolveWithSize it sz
    | none => resolveNoSize it
  | none =>
    match menuItems.find? (fun it => substrIn (lowerL it.name.data) (lowerL t)) with
    | some it => resolveFallback it
    | none => none

/-! ### Delivery zones and the zone resolver `calculate_delivery_charge` -/

/-- The default zone table shipped in the source (`delivery_charges` global),
in dict insertion order. -/
def zonesDefault : List (String × Nat) :=
  [("City Center", 80), ("Fauji Colony", 100), ("Near DHQ", 120), ("Outskirts", 150)]

/-- `calculate_delivery_charge(address_text)` generalised over the zone
table: case-insensitive substring scan in definition order, first hit wins;
on no hit, the first zone is returned.  `none` corresponds to the
IndexError the source would raise on an empty zone table. -/
def calculate_delivery_charge (zones : List (String × Nat)) (addressText : String) :
    Option (Nat × String) :=
  let a := lowerL addressText.data
  match zones.find? (fun z => substrIn (lowerL z.1.data) a) with
  | some z => some (z.2, z.1)
  | none => zones.head?.map (fun z => (z.2, z.1))

/-! ### Order store -/

/-- A cart line as stored in the session and in `items_json`. -/
structure CartItem where
  name : String
  size : String
  price : Nat
  qty : Nat
deriving DecidableEq

/-- A row of the sqlite `orders` table. -/
structure Order where
  order_id : String
  customer_phone : String
  customer_name : Option String
  items : List CartItem
  subtotal : Nat
  delivery_charges : Nat
  total : Nat
  payment_method : String
  payment_status : String
  status : String
  address : Option String
  lat : Option Int
  lng : Option Int
  created_at : String
  verified_at : Option String
  screenshot_path : Option String
deriving DecidableEq

/-- Failure of `persist_order_to_db` (sqlite IntegrityError on a duplicate
primary key). -/
inductive DbError
  | duplicateOrder
deriving DecidableEq

/-- `SELECT ... WHERE order_id=?` returning the first matching row. -/
def lookupOrder (db : List Order) (oid : String) : Option Order :=
  db.find? (fun r => r.order_id == oid)

/-- `persist_order_to_db(order)`: INSERT fails on an existing primary key;
the inserted row has no `verified_at` (the column is absent from the
INSERT's column list). -/
def persist_order_to_db (db : List Order) (o : Order) : Except DbError (List Order) :=
  if db.any (fun r => r.order_id == o.order_id) then .error .duplicateOrder
  else .ok (db ++ [{ o with verified_at := none }])

/-- The per-row effect of `update_order_payment_status`: with a screenshot
the status becomes `awaiting_verification` for a `pending` payment and
`confirmed` otherwise, and `verified_at` is stamped; without a screenshot
the status becomes `confirmed` for `paid` and `pending` otherwise. -/
def applyPaymentUpdate (o : Order) (ps : String) (shot : Option String) (now : String) : Order :=
  match shot with
  | some p =>
    { o with payment_status := ps,
             status := if ps = "pending" then "awaiting_verification" else "confirmed",
             screenshot_path := some p, verified_at := some now }
  | none =>
    { o with payment_status := ps,
             status := if ps = "paid" then "confirmed" else "pending" }

/-- `update_order_payment_status(order_id, payment_status, screenshot_path)`:
an SQL UPDATE over the rows matching `order_id` (a no-op when none match). -/
def update_order_payment_status (db : List Order) (oid ps : String) (shot : Option String)
    (now : String) : List Order :=
  db.map (fun r => if r.order_id == oid then applyPaymentUpdate r ps shot now else r)

/-- The order snapshot `notify_rider` receives (it only formats and sends
these fields). -/
structure RiderNote where
  order_id : String
  customer_phone : String
  items : List CartItem
  address : Option String
  total : Nat
deriving DecidableEq

/-- `notify_rider(order)` modelled as the snapshot it dispatches. -/
def notify_rider (o : Order) : RiderNote :=
  ⟨o.order_id, o.customer_phone, o.items, o.address, o.total⟩

/-- Outcome of the `/order/verify` endpoint.  `crash` marks the (provably
unreachable) row unpack of a vanished order. -/
inductive VerifyOutcome
  | notFound
  | crash
  | verified (note : RiderNote)
  | failed
deriving DecidableEq

/-- `verify_order` (`/order/verify`): on `verified=true` it calls
`update_order_payment_status(oid, 'paid')` (no screenshot), then issues a
second UPDATE setting `status='confirmed'`, re-reads the row and schedules
`notify_rider` with the snapshot; on `verified=false` it calls
`update_order_payment_status(oid, 'failed')`. -/
def verify_order (db : List Order) (oid : String) (isVerified : Bool) (now : String) :
    List Order × VerifyOutcome :=
  match lookupOrder db oid with
  | none => (db, .notFound)
  | some row =>
    if isVerified then
      let db1 := update_order_payment_status db oid "paid" none now
      let db2 := db1.map (fun r => if r.order_id == oid then { r with status := "confirmed" } else r)
      match lookupOrder db2 oid with
      | none => (db2, .crash)
      | some o2 => (db2, .verified ⟨oid, row.customer_phone, o2.items, o2.address, o2.total⟩)
    else
      (update_order_payment_status db oid "failed" none now, .failed)

/-- `/order/create` (`http_create_order`): subtotal is recomputed from the
submitted items as `price * qty`, `total = subtotal + delivery_charges`,
status is `confirmed` for `cod` and `awaiting_payment` otherwise.  On an id
collision the insert raises and the store is unchanged. -/
def http_create_order (db : List Order) (phone : String) (cname : Option String)
    (items : List CartItem) (pm : String) (dc : Nat) (addr : Option String)
    (lat lng : Option Int) (fresh now : String) : List Order × Option RiderNote :=
  let oid := "PH-" ++ fresh
  let subtotal := items.foldl (fun acc it => acc + it.price * it.qty) 0
  let total := subtotal + dc
  let o : Order :=
    { order_id := oid, customer_phone := phone, customer_name := cname,
      items := items, subtotal := subtotal, delivery_charges := dc, total := total,
      payment_method := pm, payment_status := "pending",
      status := if pm = "cod" then "confirmed" else "awaiting_payment",
      address := addr, lat := lat, lng := lng, created_at := now,
      verified_at := none, screenshot_path := none }
  match persist_order_to_db db o with
  | .error _ => (db, none)
  | .ok db' => (db', some (notify_rider o))

/-! ### Conversation sessions and the router `whatsapp_webhook` -/

/-- A per-sender session dict; `none` models an absent key. -/
structure Session where
  cart : Option (List CartItem) := none
  subtotal : Option Nat := none
  awaiting_address : Bool := false
  address : Option String := none
  delivery_charges : Option Nat := none
  total : Option Nat := none
  pending_order_id : Option String := none
  name : Option String := none
deriving DecidableEq

/-- Outbound message tags, one per `send_whatsapp` call site of the webhook
handler (texts abstracted, payloads kept). -/
inductive Reply
  | orderPrompt
  | menuText
  | addedToCart (size name : String) (price subtotal : Nat)
  | itemNotFound
  | cartEmptyAdd
  | cartEmptyPayment
  | cartEmptyPickup
  | checkoutSummary (subtotal : Nat)
  | askAddress
  | pickupConfirmed (oid : String)
  | addressPreview (dc : Nat) (zone : String) (subtotal total : Nat)
  | askAddressFirst
  | bankDetails (total : Nat) (oid : String)
  | uploadInstructions
  | trackPrompt
  | orderStatus (oid status ps : String) (total : Nat) (created : String)
  | orderNotFound
  | helpMenu
deriving DecidableEq

/-- Uncaught Python exceptions escaping the handler. -/
inductive RouteErr
  | keyError
  | indexError
  | dbError
deriving DecidableEq

/-- Result of one webhook invocation: the session map and order table after
all committed effects, the outbound messages in send order, the scheduled
rider notifications, and an uncaught exception if one was raised. -/
structure RouteOut where
  sessions : List (String × Session)
  db : List Order
  replies : List (String × Reply)
  rider : List RiderNote
  err : Option RouteErr
deriving DecidableEq

/-- `sessions.get(sender)`. -/
def getSession (ss : List (String × Session)) (u : String) : Option Session :=
  (ss.find? (fun p => p.1 == u)).map (·.2)

/-- Store a sender's session, keeping dict insertion order. -/
def setSession (ss : List (String × Session)) (u : String) (s : Session) :
    List (String × Session) :=
  match ss with
  | [] => [(u, s)]
  | (k, v) :: t => if k == u then (k, s) :: t else (k, v) :: setSession t u s

/-- `sessions.pop(sender, None)`. -/
def popSession (ss : List (String × Session)) (u : String) : List (String × Session) :=
  ss.filter (fun p => !(p.1 == u))

/-- `sum(i['price'] * i.get('qty', 1) for i in cart)`. -/
def lineTotal (c : List CartItem) : Nat := c.foldl (fun a i => a + i.price * i.qty) 0

/-- `sum(i['price'] for i in cart)` (the qty-less sums in the address and
online branches). -/
def priceSum (c : List CartItem) : Nat := c.foldl (fun a i => a + i.price) 0

/-- `any(k in lower for k in ks)`. -/
def anyKeyword (lower : List Char) (ks : List String) : Bool :=
  ks.any (fun k => substrIn k.data lower)

/-- Rule 1: greeting/order-intent keywords (note that "menu" and "pizza"
are tested by substring containment here, ahead of every later rule). -/
def kwGreeting (lower : List Char) : Bool :=
  anyKeyword lower ["order", "menu", "pizza", "place order", "order karna", "order krna"]

/-- Rule 2: exact "menu" or a "show menu" substring. -/
def kwMenu (lower : List Char) : Bool :=
  lower == "menu".data || substrIn "show menu".data lower

/-- Rule 3: size/product keywords. -/
def kwItem (lower : List Char) : Bool :=
  anyKeyword lower ["large", "medium", "small", "fries", "pepsi"]

/-- Rule 4: exact "checkout". -/
def kwCheckout (lower : List Char) : Bool := lower == "checkout".data

/-- Rule 5: exact "cod" or a "cash" substring. -/
def kwCod (lower : List Char) : Bool := lower == "cod".data || substrIn "cash".data lower

/-- Rule 6: exact "pickup". -/
def kwPickup (lower : List Char) : Bool := lower == "pickup".data

/-- Rule 7: an "address" keyword, or the session's `awaiting_address`
flag (passed in by the caller). -/
def kwAddress (lower : List Char) (awaiting : Bool) : Bool :=
  substrIn "confirm address".data lower || substrIn "address".data lower || awaiting

/-- Rule 8: exact "online". -/
def kwOnline (lower : List Char) : Bool := lower == "online".data

/-- Rule 9: upload/screenshot keywords. -/
def kwUpload (lower : List Char) : Bool :=
  lower == "upload screenshot".data || isPrefixL "upload".data lower
    || substrIn "screenshot".data lower

/-- Rule 10: track keywords. -/
def kwTrack (lower : List Char) : Bool :=
  lower == "track".data || substrIn "track order".data lower

/-- Rule 11: a non-empty body starting with the order-id prefix (tested on
the original, un-lowered text). -/
def kwOrderId (text : List Char) : Bool := !text.isEmpty && isPrefixL "PH-".data text

/-- The text-message path of `whatsapp_webhook`: the elif intent cascade,
evaluated top to bottom against the lower-cased body.  `fresh` is the uuid
hex fragment for a generated order id, `now` the current UTC timestamp. -/
def whatsapp_webhook (ss : List (String × Session)) (db : List Order)
    (sender text fresh now : String) : RouteOut :=
  let lower : List Char := lowerL text.data
  if kwGreeting lower then
    ⟨ss, db, [(sender, .orderPrompt)], [], none⟩
  else if kwMenu lower then
    ⟨ss, db, [(sender, .menuText)], [], none⟩
  else if kwItem lower then
    match match_menu_item text with
    | some (it, price, size) =>
      let s0 := (getSession ss sender).getD { cart := some [] }
      match s0.cart with
      | none => ⟨ss, db, [], [], some .keyError⟩
      | some c =>
        let c' := c ++ [⟨it.name, size, price, 1⟩]
        ⟨setSession ss sender { s0 with cart := some c' }, db,
          [(sender, .addedToCart size it.name price (lineTotal c'))], [], none⟩
    | none => ⟨ss, db, [(sender, .itemNotFound)], [], none⟩
  else if kwCheckout lower then
    match getSession ss sender with
    | none => ⟨ss, db, [(sender, .cartEmptyAdd)], [], none⟩
    | some s =>
      match s.cart with
      | none => ⟨ss, db, [(sender, .cartEmptyAdd)], [], none⟩
      | some [] => ⟨ss, db, [(sender, .cartEmptyAdd)], [], none⟩
      | some (i :: rest) =>
        let sub := lineTotal (i :: rest)
        ⟨setSession ss sender { s with subtotal := some sub }, db,
          [(sender, .checkoutSummary sub)], [], none⟩
  else if kwCod lower then
    match getSession ss sender with
    | none => ⟨ss, db, [(sender, .cartEmptyPayment)], [], none⟩
    | some s =>
      if s.cart.getD [] == [] then ⟨ss, db, [(sender, .cartEmptyPayment)], [], none⟩
      else ⟨setSession ss sender { s with awaiting_address := true }, db,
        [(sender, .askAddress)], [], none⟩
  else if kwPickup lower then
    match getSession ss sender with
    | none => ⟨ss, db, [(sender, .cartEmptyPickup)], [], none⟩
    | some s =>
      if s.cart.getD [] == [] then ⟨ss, db, [(sender, .cartEmptyPickup)], [], none⟩
      else
        match s.subtotal with
        | none => ⟨ss, db, [], [], some .keyError⟩
        | some sub =>
          let o : Order :=
            { order_id := "PH-" ++ fresh, customer_phone := sender, customer_name := s.name,
              items := s.cart.getD [], subtotal := sub, delivery_charges := 0, total := sub,
              payment_method := "cod", payment_status := "pending", status := "confirmed",
              address := some "PICKUP", lat := none, lng := none, created_at := now,
              verified_at := none, screenshot_path := none }
          match persist_order_to_db db o with
          | .error _ => ⟨ss, db, [], [], some .dbError⟩
          | .ok db' =>
            ⟨popSession ss sender, db', [(sender, .pickupConfirmed ("PH-" ++ fresh))],
              [notify_rider o], none⟩
  else if kwAddress lower (((getSession ss sender).map (·.awaiting_address)).getD false) then
    let s0 := (getSession ss sender).getD {}
    match calculate_delivery_charge zonesDefault text with
    | none => ⟨ss, db, [], [], some .indexError⟩
    | some (dc, zone) =>
      let sub := s0.subtotal.getD (priceSum (s0.cart.getD []))
      let tot := sub + dc
      ⟨setSession ss sender
          { s0 with address := some text, awaiting_address := false,
                    delivery_charges := some dc, total := some tot }, db,
        [(sender, .addressPreview dc zone sub tot)], [], none⟩
  else if kwOnline lower then
    match getSession ss sender with
    | none => ⟨ss, db, [(sender, .cartEmptyPayment)], [], none⟩
    | some s =>
      if s.cart.getD [] == [] then ⟨ss, db, [(sender, .cartEmptyPayment)], [], none⟩
      else
        let sub := s.subtotal.getD (priceSum (s.cart.getD []))
        if s.delivery_charges.getD 0 == 0 then
          ⟨ss, db, [(sender, .askAddressFirst)], [], none⟩
        else
          let dc := s.delivery_charges.getD 0
          let tot := sub + dc
          let oid := "PH-" ++ fresh
          let ss' := setSession ss sender { s with total := some tot, pending_order_id := some oid }
          let o : Order :=
            { order_id := oid, customer_phone := sender, customer_name := s.name,
              items := s.cart.getD [], subtotal := sub, delivery_charges := dc, total := tot,
              payment_method := "online_manual", payment_status := "pending",
              status := "awaiting_payment", address := s.address, lat := none, lng := none,
              created_at := now, verified_at := none, screenshot_path := none }
          match persist_order_to_db db o with
          | .error _ => ⟨ss', db, [(sender, .bankDetails tot oid)], [], some .dbError⟩
          | .ok db' => ⟨ss', db', [(sender, .bankDetails tot oid)], [], none⟩
  else if kwUpload lower then
    ⟨ss, db, [(sender, .uploadInstructions)], [], none⟩
  else if kwTrack lower then
    ⟨ss, db, [(sender, .trackPrompt)], [], none⟩
  else if kwOrderId text.data then
    let oid : String := ⟨stripL text.data⟩
    match lookupOrder db oid with
    | some o =>
      ⟨ss, db, [(sender, .orderStatus oid o.status o.payment_status o.total o.created_at)],
        [], none⟩
    | none => ⟨ss, db, [(sender, .orderNotFound)], [], none⟩
  else
    ⟨ss, db, [(sender, .helpMenu)], [], none⟩

/-! ### Operation sequences over the shared state -/

/-- One externally triggered operation on the system: a routed inbound text,
the POS create endpoint, a store payment update (screenshot upload or
gateway webhook), or the admin verification endpoint. -/
inductive Op
  | route (sender text fresh now : String)
  | create (phone : String) (cname : Option String) (items : List CartItem) (pm : String)
      (dc : Nat) (addr : Option String) (lat lng : Option Int) (fresh now : String)
  | updatePayment (oid ps : String) (shot : Option String) (now : String)
  | verify (oid : String) (ok : Bool) (now : String)

/-- The shared mutable state: the session map and the orders table. -/
structure SysState where
  sessions : List (String × Session)
  db : List Order
deriving DecidableEq

/-- Apply one operation. -/
def stepOp (st : SysState) : Op → SysState
  | .route u t f n =>
    let r := whatsapp_webhook st.sessions st.db u t f n
    ⟨r.sessions, r.db⟩
  | .create ph cn its pm dc ad la ln f n =>
    ⟨st.sessions, (http_create_order st.db ph cn its pm dc ad la ln f n).1⟩
  | .updatePayment oid ps shot n => ⟨st.sessions, update_order_payment_status st.db oid ps shot n⟩
  | .verify oid b n => ⟨st.sessions, (verify_order st.db oid b n).1⟩

/-- Run a sequence of operations. -/
def runOps (ops : List Op) (st : SysState) : SysState := ops.foldl stepOp st

/-! ### Sample data used by concrete instances -/

/-- A cart line for one Fries. -/
def friesLine : CartItem := ⟨"Fries", "OneSize", 120, 1⟩

/-- A persisted sample order awaiting online payment. -/
def orderA : Order :=
  ⟨"PH-1", "03001112222", none, [friesLine], 120, 80, 200, "online_manual", "pending",
    "awaiting_payment", some "Fauji Colony house 7", none, none, "2025-01-01T10:00:00",
    none, none⟩

/-- The first catalog item. -/
def ctpItem : MenuItem :=
  ⟨"Chicken Tikka Pizza", [("Small", 350), ("Medium", 650), ("Large", 950)]⟩

/-- The second catalog item. -/
def pepItem : MenuItem :=
  ⟨"Pepperoni Pizza", [("Small", 400), ("Medium", 700), ("Large", 1000)]⟩

/-- The third catalog item. -/
def margItem : MenuItem :=
  ⟨"Margherita Pizza", [("Small", 300), ("Medium", 550), ("Large", 800)]⟩

/-- Padded text whose fuzzy similarity to every catalog name is below the
0.5 cutoff while containing a size token and a full item name. -/
def c9text : String := "zzzzzzzzzzzzzzzzzzzzzzzzzzzzzzzzzzzzzzzz Large Chicken Tikka Pizza"

/-- Add Fries, checkout, add a second Fries after checkout, then pickup. -/
def c4ops : List Op :=
  [.route "u" "Fries" "A1" "t1", .route "u" "checkout" "A2" "t2",
   .route "u" "Fries" "A3" "t3", .route "u" "pickup" "A4" "t4"]

/-- A store-operation sequence over an existing order. -/
def c4wOps : List Op :=
  [Op.updatePayment "PH-1" "paid" none "T9", Op.verify "PH-1" true "T9"]

/-- The stored-field total invariant: every persisted row satisfies
`total = subtotal + delivery_charges`. -/
def dbTotalsConsistent (db : List Order) : Prop :=
  ∀ o ∈ db, o.total = o.subtotal + o.delivery_charges

/-! ## Helper lemmas about the store -/

/-- Looking up after an UPDATE keyed on `order_id`: the found row is the
transformed original, provided the transform preserves `order_id`. -/
theorem lookup_update_eq (db : List Order) (oid : String) (f : Order → Order)
    (hf : ∀ r, (f r).order_id = r.order_id) :
    lookupOrder (db.map (fun r => if r.order_id == oid then f r else r)) oid
      = (lookupOrder db oid).map f := by
  induction db with
  | nil => rfl
  | cons a t ih =>
    by_cases h : a.order_id = oid
    · simp [lookupOrder, List.find?_cons_of_pos, h, hf]
    · have hb : (a.order_id == oid) = false := by simp [h]
      simp only [List.map_cons, hb, if_neg, Bool.false_eq_true, not_false_iff, lookupOrder] at *
      rw [List.find?_cons_of_neg _ (by simp [h]), List.find?_cons_of_neg _ (by simp [h])]
      exact ih

/-- Characterisation of a successful insert. -/
theorem persist_ok_iff (db db' : List Order) (o : Order) :
    persist_order_to_db db o = .ok db' ↔
      db.any (fun r => r.order_id == o.order_id) = false ∧
      db' = db ++ [{ o with verified_at := none }] := by
  unfold persist_order_to_db
  by_cases h : db.any (fun r => r.order_id == o.order_id)
  · simp [h]
  · simp only [Bool.not_eq_true] at h
    simp [h, eq_comm]

/-- A row present before an insert is still found afterwards, unchanged. -/
theorem lookup_append_of_some (db l : List Order) (oid : String) (o : Order)
    (h : lookupOrder db oid = some o) : lookupOrder (db ++ l) oid = some o := by
  unfold lookupOrder at *
  rw [List.find?_append, h]
  rfl

end PizzaHome

namespace PizzaHome

/-! ## Claim C1 - `update_payment` status derivation -/

/-- Claim C1: for every existing order, `update_payment` with a screenshot
reference moves `status` to `awaiting_verification` when the new
`payment_status` is `pending` and to `confirmed` otherwise; without a
screenshot reference, `paid` moves `status` to `confirmed` and any other
payment status moves it to `pending`. -/
theorem update_payment_status_rule (db : List Order) (oid : String) (o : Order) (ps now : String)
    (h : lookupOrder db oid = some o) :
    (∀ r : String,
      lookupOrder (update_order_payment_status db oid ps (some r) now) oid =
        some { o with payment_status := ps, screenshot_path := some r, verified_at := some now,
                      status := if ps = "pending" then "awaiting_verification" else "confirmed" }) ∧
    lookupOrder (update_order_payment_status db oid ps none now) oid =
      some { o with payment_status := ps,
                    status := if ps = "paid" then "confirmed" else "pending" } := by
  constructor
  · intro r
    rw [update_order_payment_status,
      lookup_update_eq db oid (fun x => applyPaymentUpdate x ps (some r) now) (fun x => rfl), h]
    rfl
  · rw [update_order_payment_status,
      lookup_update_eq db oid (fun x => applyPaymentUpdate x ps none now) (fun x => rfl), h]
    rfl

/-- Witness for C1: both derivation rules evaluated on a concrete store. -/
theorem update_payment_status_rule_witness :
    lookupOrder (update_order_payment_status [orderA] "PH-1" "pending" (some "up.png") "T1")
        "PH-1" =
      some { orderA with payment_status := "pending", screenshot_path := some "up.png",
                         verified_at := some "T1", status := "awaiting_verification" } ∧
    lookupOrder (update_order_payment_status [orderA] "PH-1" "paid" none "T1") "PH-1" =
      some { orderA with payment_status := "paid", status := "confirmed" } :=
  ⟨(update_payment_status_rule [orderA] "PH-1" orderA "pending" "T1" rfl).1 "up.png",
   (update_payment_status_rule [orderA] "PH-1" orderA "paid" "T1" rfl).2⟩

/-! ## Claim C5 - duplicate `create` fails closed -/

/-- Claim C5: creating an order whose `order_id` was already persisted fails
with the duplicate-key error instead of overwriting, and the originally
persisted record is still what a lookup returns afterwards. -/
theorem create_duplicate_fails (db db' : List Order) (o o' : Order)
    (h1 : persist_order_to_db db o = .ok db') (h2 : o'.order_id = o.order_id) :
    persist_order_to_db db' o' = .error DbError.duplicateOrder ∧
    lookupOrder db' o.order_id = some { o with verified_at := none } := by
  obtain ⟨hany, rfl⟩ := (persist_ok_iff db _ o).mp h1
  constructor
  · have hmem : ((db ++ [{ o with verified_at := none }]).any
        (fun r => r.order_id == o'.order_id)) = true := by
      rw [List.any_append]
      simp [h2]
    unfold persist_order_to_db
    rw [hmem]
    rfl
  · have hnone : lookupOrder db o.order_id = none := by
      unfold lookupOrder
      rw [List.find?_eq_none]
      exact List.any_eq_false.mp hany
    unfold lookupOrder at *
    rw [List.find?_append, hnone]
    simp

/-- Witness for C5: a second create with the same id on a concrete store. -/
theorem create_duplicate_fails_witness :
    persist_order_to_db [{ orderA with verified_at := none }]
        { orderA with customer_phone := "other" } = .error DbError.duplicateOrder ∧
    lookupOrder [{ orderA with verified_at := none }] orderA.order_id =
      some { orderA with verified_at := none } :=
  create_duplicate_fails [] [{ orderA with verified_at := none }] orderA
    { orderA with customer_phone := "other" } rfl rfl

/-! ## Claim C6 - `update_payment` on a missing order -/

/-- Counterexample to C6: on a store without the order id, the update
completes (it does not fail with NotFound) and leaves the store unchanged -
the SQL UPDATE simply matches zero rows. -/
theorem update_payment_missing_cex :
    lookupOrder ([] : List Order) "PH-DEADBEEF" = none ∧
    update_order_payment_status [] "PH-DEADBEEF" "paid" none "T1" = [] :=
  ⟨rfl, rfl⟩

/-- Amended C6: for every `order_id` not present in the store,
`update_payment` is a silent no-op - it completes without error and the
store is unchanged. -/
theorem update_payment_missing_noop (db : List Order) (oid ps : String) (shot : Option String)
    (now : String) (h : lookupOrder db oid = none) :
    update_order_payment_status db oid ps shot now = db := by
  induction db with
  | nil => rfl
  | cons a t ih =>
    by_cases ha : a.order_id = oid
    · exfalso
      unfold lookupOrder at h
      rw [List.find?_cons_of_pos _ (by simp [ha])] at h
      exact Option.noConfusion h
    · have ht : lookupOrder t oid = none := by
        unfold lookupOrder at h ⊢
        rwa [List.find?_cons_of_neg _ (by simp [ha])] at h
      unfold update_order_payment_status at ih ⊢
      simp only [List.map_cons, ih ht]
      rw [if_neg (by simp [ha])]

/-- Witness for the amended C6 on a concrete store. -/
theorem update_payment_missing_noop_witness :
    update_order_payment_status [orderA] "PH-DEADBEEF" "paid" none "T1" = [orderA] :=
  update_payment_missing_noop [orderA] "PH-DEADBEEF" "paid" none "T1" rfl

/-! ## Claim C7 - the manual verification path -/

/-- Counterexample to C7: verifying a concrete order sets
`payment_status = paid` and `status = confirmed`, but `verified_at` on the
persisted record stays `none` - the no-screenshot branch of
`update_order_payment_status` never touches `verified_at`, so the manual
confirm path stamps nothing. -/
theorem verify_no_verified_at_cex :
    (verify_order [orderA] "PH-1" true "T9").1 =
      [{ orderA with payment_status := "paid", status := "confirmed" }] ∧
    ({ orderA with payment_status := "paid", status := "confirmed" } : Order).verified_at = none ∧
    some "T9" ≠ (none : Option String) :=
  ⟨rfl, rfl, by decide⟩

/-- Amended C7: for every existing order, the admin-verified path sets
`payment_status` to `paid` and `status` to `confirmed` and triggers the
rider notification with the persisted snapshot (id, phone, items, address,
total); `verified_at` is NOT stamped - it is left exactly as it was (it is
only ever set when `update_payment` receives a screenshot reference). -/
theorem verify_confirm_manual (db : List Order) (oid : String) (o : Order) (now : String)
    (h : lookupOrder db oid = some o) :
    (verify_order db oid true now).2 =
      .verified ⟨oid, o.customer_phone, o.items, o.address, o.total⟩ ∧
    lookupOrder (verify_order db oid true now).1 oid =
      some { o with payment_status := "paid", status := "confirmed" } := by
  have h1 : lookupOrder (update_order_payment_status db oid "paid" none now) oid
      = some { o with payment_status := "paid", status := "confirmed" } := by
    rw [update_order_payment_status,
      lookup_update_eq db oid (fun x => applyPaymentUpdate x "paid" none now) (fun x => rfl), h]
    rfl
  have h2 : lookupOrder
      ((update_order_payment_status db oid "paid" none now).map
        (fun r => if r.order_id == oid then { r with status := "confirmed" } else r)) oid
      = some { o with payment_status := "paid", status := "confirmed" } := by
    rw [lookup_update_eq _ oid (fun r => { r with status := "confirmed" }) (fun x => rfl), h1]
    rfl
  constructor
  · simp only [verify_order, h, h2, if_true]
  · simp only [verify_order, h, h2, if_true]

/-- Witness for the amended C7 on a concrete store. -/
theorem verify_confirm_manual_witness :
    (verify_order [orderA] "PH-1" true "T9").2 =
      .verified ⟨"PH-1", orderA.customer_phone, orderA.items, orderA.address, orderA.total⟩ ∧
    lookupOrder (verify_order [orderA] "PH-1" true "T9").1 "PH-1" =
      some { orderA with payment_status := "paid", status := "confirmed" } :=
  verify_confirm_manual [orderA] "PH-1" orderA "T9" rfl

/-! ## Claim C3 - the zone resolver -/

/-- `find?` returns the entry at the first index whose predicate holds. -/
theorem find_first_hit {α : Type} (p : α → Bool) :
    ∀ (l : List α) (i : Nat) (hi : i < l.length),
      p (l.get ⟨i, hi⟩) = true →
      (l.take i).all (fun z => !(p z)) = true →
      l.find? p = some (l.get ⟨i, hi⟩)
  | [], i, hi, _, _ => absurd hi (by simp)
  | a :: t, 0, _, hp, _ => List.find?_cons_of_pos t hp
  | a :: t, n + 1, hi, hp, hall => by
    rw [List.take_succ_cons, List.all_cons, Bool.and_eq_true] at hall
    have ha : p a = false := by
      have h1 := hall.1
      revert h1
      cases p a <;> simp
    rw [List.find?_cons_of_neg _ (by simp [ha])]
    exact find_first_hit p t n (Nat.lt_of_succ_lt_succ hi) hp hall.2

/-- Claim C3: the zone resolver scans the configured zones in the table's
definition order with a case-insensitive substring test and the first hit
wins (so the zone defined earlier in the table wins regardless of where it
appears in the address text); when no configured zone name occurs in the
address, the first-defined zone's fee and name are returned, not an
error. -/
theorem zone_resolution (zones : List (String × Nat)) (addr : String) :
    (∀ (i : Nat) (hi : i < zones.length),
      substrIn (lowerL (zones.get ⟨i, hi⟩).1.data) (lowerL addr.data) = true →
      (zones.take i).all (fun z => !(substrIn (lowerL z.1.data) (lowerL addr.data))) = true →
      calculate_delivery_charge zones addr =
        some ((zones.get ⟨i, hi⟩).2, (zones.get ⟨i, hi⟩).1)) ∧
    (zones.all (fun z => !(substrIn (lowerL z.1.data) (lowerL addr.data))) = true →
      ∀ z0 rest, zones = z0 :: rest →
      calculate_delivery_charge zones addr = some (z0.2, z0.1)) := by
  constructor
  · intro i hi hp hall
    simp only [calculate_delivery_charge]
    rw [find_first_hit _ zones i hi hp hall]
  · intro hall z0 rest hz
    simp only [calculate_delivery_charge]
    have hnone : zones.find? (fun z => substrIn (lowerL z.1.data) (lowerL addr.data)) = none := by
      rw [List.find?_eq_none]
      intro x hx
      have hx' := List.all_eq_true.mp hall x hx
      simp only [Bool.not_eq_true'] at hx'
      simp [hx']
    rw [hnone, hz]
    rfl

/-- Witness for C3: "Near DHQ" appears first in the address but "Fauji
Colony" is defined earlier in the table and wins; an address matching no
zone falls back to the first-defined zone. -/
theorem zone_resolution_witness :
    calculate_delivery_charge zonesDefault "Near DHQ, Fauji Colony" = some (100, "Fauji Colony") ∧
    calculate_delivery_charge zonesDefault "H-13 Street 5" = some (80, "City Center") :=
  ⟨(zone_resolution zonesDefault "Near DHQ, Fauji Colony").1 1 (by decide) (by decide) (by decide),
   (zone_resolution zonesDefault "H-13 Street 5").2 (by decide) ("City Center", 80) _ rfl⟩

/-! ## Claim C2 - exact item name plus size token -/

set_option maxRecDepth 60000

/-- Counterexample to C2: resolving the exact name "Chicken Tikka Pizza"
plus the size token "Small" does NOT return the Small price (350).  The
size scan checks the single letter before the word ("l" precedes "Small"
in the token list) and the "l" inside "Small" wins, is normalised to "L",
which is not a key of the price table, so the resolver falls back to the
Medium price 650. -/
theorem menu_size_token_cex :
    detectSize (stripL "Chicken Tikka Pizza Small".data) = some "L" ∧
    match_menu_item "Chicken Tikka Pizza Small" = some (ctpItem, 650, "Medium") ∧
    assocPrice ctpItem.prices "Small" = some 350 ∧
    (650 : Nat) ≠ 350 :=
  ⟨by decide, by decide, by decide, by decide⟩

/-- A character of a prefix occurs in the longer list. -/
theorem mem_of_isPrefixL (needle hay : List Char) (c : Char) (hmem : c ∈ needle)
    (h : isPrefixL needle hay = true) : c ∈ hay := by
  induction needle generalizing hay with
  | nil => cases hmem
  | cons a tl ih =>
    cases hay with
    | nil => simp [isPrefixL] at h
    | cons b hb =>
      simp only [isPrefixL, Bool.and_eq_true, beq_iff_eq] at h
      rcases List.mem_cons.mp hmem with rfl | hmem'
      · rw [h.1]
        exact List.mem_cons_self _ _
      · exact List.mem_cons_of_mem _ (ih hb hmem' h.2)

/-- A character of a contained substring occurs in the haystack. -/
theorem mem_of_substrIn (needle hay : List Char) (c : Char) (hmem : c ∈ needle)
    (h : substrIn needle hay = true) : c ∈ hay := by
  induction hay with
  | nil =>
    cases needle with
    | nil => cases hmem
    | cons a tl => simp [substrIn] at h
  | cons b tb ih =>
    simp only [substrIn, Bool.or_eq_true] at h
    rcases h with h | h
    · exact mem_of_isPrefixL _ _ c hmem h
    · exact List.mem_cons_of_mem _ (ih h)

/-- A single character occurring in a list is a substring of it. -/
theorem substrIn_single (hay : List Char) (c : Char) (h : c ∈ hay) :
    substrIn [c] hay = true := by
  induction hay with
  | nil => cases h
  | cons b tb ih =>
    rcases List.mem_cons.mp h with rfl | h'
    · simp [substrIn, isPrefixL]
    · simp [substrIn, ih h']

/-- Peel a positive head off a `find?` scan (predicate explicit). -/
theorem find?_peel_pos {α : Type} (p : α → Bool) (a : α) (l : List α) (h : p a = true) :
    (a :: l).find? p = some a := List.find?_cons_of_pos l h

/-- Peel a negative head off a `find?` scan (predicate explicit). -/
theorem find?_peel_neg {α : Type} (p : α → Bool) (a : α) (l : List α) (h : ¬ p a = true) :
    (a :: l).find? p = l.find? p := List.find?_cons_of_neg l h

/-- The size scan can never detect "Small": the single-letter tokens
"L"/"l" are tested before "Small"/"small", and the letter occurs inside
the word itself, so whenever "Small" or "small" is contained in the text
the scan has already stopped at an earlier token. -/
theorem detectSize_ne_small (t : List Char) : detectSize t ≠ some "Small" := by
  unfold detectSize sizeTokens
  by_cases h1 : substrIn "Large".data t = true
  · rw [find?_peel_pos (fun s : String => substrIn s.data t) _ _ h1]; decide
  rw [find?_peel_neg (fun s : String => substrIn s.data t) _ _ h1]
  by_cases h2 : substrIn "large".data t = true
  · rw [find?_peel_pos (fun s : String => substrIn s.data t) _ _ h2]; decide
  rw [find?_peel_neg (fun s : String => substrIn s.data t) _ _ h2]
  by_cases h3 : substrIn "L".data t = true
  · rw [find?_peel_pos (fun s : String => substrIn s.data t) _ _ h3]; decide
  rw [find?_peel_neg (fun s : String => substrIn s.data t) _ _ h3]
  by_cases h4 : substrIn "l".data t = true
  · rw [find?_peel_pos (fun s : String => substrIn s.data t) _ _ h4]; decide
  rw [find?_peel_neg (fun s : String => substrIn s.data t) _ _ h4]
  by_cases h5 : substrIn "Medium".data t = true
  · rw [find?_peel_pos (fun s : String => substrIn s.data t) _ _ h5]; decide
  rw [find?_peel_neg (fun s : String => substrIn s.data t) _ _ h5]
  by_cases h6 : substrIn "medium".data t = true
  · rw [find?_peel_pos (fun s : String => substrIn s.data t) _ _ h6]; decide
  rw [find?_peel_neg (fun s : String => substrIn s.data t) _ _ h6]
  by_cases h7 : substrIn "M".data t = true
  · rw [find?_peel_pos (fun s : String => substrIn s.data t) _ _ h7]; decide
  rw [find?_peel_neg (fun s : String => substrIn s.data t) _ _ h7]
  by_cases h8 : substrIn "m".data t = true
  · rw [find?_peel_pos (fun s : String => substrIn s.data t) _ _ h8]; decide
  rw [find?_peel_neg (fun s : String => substrIn s.data t) _ _ h8]
  have h9 : ¬ substrIn "Small".data t = true := fun hc =>
    h4 (substrIn_single t 'l' (mem_of_substrIn "Small".data t 'l' (by decide) hc))
  rw [find?_peel_neg (fun s : String => substrIn s.data t) _ _ h9]
  have h10 : ¬ substrIn "small".data t = true := fun hc =>
    h4 (substrIn_single t 'l' (mem_of_substrIn "small".data t 'l' (by decide) hc))
  rw [find?_peel_neg (fun s : String => substrIn s.data t) _ _ h10]
  by_cases h11 : substrIn "S".data t = true
  · rw [find?_peel_pos (fun s : String => substrIn s.data t) _ _ h11]; decide
  rw [find?_peel_neg (fun s : String => substrIn s.data t) _ _ h11]
  by_cases h12 : substrIn "s".data t = true
  · rw [find?_peel_pos (fun s : String => substrIn s.data t) _ _ h12]; decide
  rw [find?_peel_neg (fun s : String => substrIn s.data t) _ _ h12]
  simp

/-- Every shipped catalog item has a Medium or a OneSize price, so the
first-entry fallback of the resolvers is unreachable. -/
theorem menu_items_priced : ∀ it ∈ menuItems,
    (assocPrice it.prices "Medium").isSome = true ∨
    (assocPrice it.prices "OneSize").isSome = true := by decide

/-- With a detected size, the returned size key is the detected size,
"OneSize" or "Medium" (for items with a Medium or OneSize price). -/
theorem resolveWithSize_key (it : MenuItem) (sz : String) (r : MenuItem × Nat × String)
    (hmo : (assocPrice it.prices "Medium").isSome = true ∨
      (assocPrice it.prices "OneSize").isSome = true)
    (h : resolveWithSize it sz = some r) :
    r.2.2 = sz ∨ r.2.2 = "OneSize" ∨ r.2.2 = "Medium" := by
  unfold resolveWithSize at h
  cases h1 : assocPrice it.prices sz with
  | some p =>
    simp only [h1] at h
    injection h with h'
    subst h'
    exact Or.inl rfl
  | none =>
    simp only [h1] at h
    cases h2 : assocPrice it.prices "OneSize" with
    | some p =>
      simp only [h2] at h
      injection h with h'
      subst h'
      exact Or.inr (Or.inl rfl)
    | none =>
      simp only [h2] at h
      cases h3 : assocPrice it.prices "Medium" with
      | some p =>
        simp only [h3] at h
        injection h with h'
        subst h'
        exact Or.inr (Or.inr rfl)
      | none =>
        exfalso
        rcases hmo with hm | hm
        · rw [h3] at hm
          exact Bool.noConfusion hm
        · rw [h2] at hm
          exact Bool.noConfusion hm

/-- With no detected size, the returned size key is "Medium" or "OneSize"
(for items with a Medium or OneSize price). -/
theorem resolveNoSize_key (it : MenuItem) (r : MenuItem × Nat × String)
    (hmo : (assocPrice it.prices "Medium").isSome = true ∨
      (assocPrice it.prices "OneSize").isSome = true)
    (h : resolveNoSize it = some r) :
    r.2.2 = "Medium" ∨ r.2.2 = "OneSize" := by
  unfold resolveNoSize at h
  cases h1 : assocPrice it.prices "Medium" with
  | some p =>
    simp only [h1] at h
    injection h with h'
    subst h'
    exact Or.inl rfl
  | none =>
    simp only [h1] at h
    cases h2 : assocPrice it.prices "OneSize" with
    | some p =>
      simp only [h2] at h
      injection h with h'
      subst h'
      exact Or.inr rfl
    | none =>
      exfalso
      rcases hmo with hm | hm
      · rw [h1] at hm
        exact Bool.noConfusion hm
      · rw [h2] at hm
        exact Bool.noConfusion hm

/-- In the substring fallback, the returned size key is "Medium" or
"OneSize" (for items with a Medium or OneSize price). -/
theorem resolveFallback_key (it : MenuItem) (r : MenuItem × Nat × String)
    (hmo : (assocPrice it.prices "Medium").isSome = true ∨
      (assocPrice it.prices "OneSize").isSome = true)
    (h : resolveFallback it = some r) :
    r.2.2 = "Medium" ∨ r.2.2 = "OneSize" := by
  unfold resolveFallback at h
  cases h1 : assocPrice it.prices "Medium" with
  | some p =>
    simp only [h1] at h
    injection h with h'
    subst h'
    exact Or.inl rfl
  | none =>
    simp only [h1] at h
    cases h2 : assocPrice it.prices "OneSize" with
    | some p =>
      simp only [h2] at h
      injection h with h'
      subst h'
      exact Or.inr rfl
    | none =>
      exfalso
      rcases hmo with hm | hm
      · rw [h1] at hm
        exact Bool.noConfusion hm
      · rw [h2] at hm
        exact Bool.noConfusion hm

/-- A fuzzy-pass hit is a catalog item. -/
theorem fuzzyPass_mem (t : List Char) (it : MenuItem) (h : fuzzyPass t = some it) :
    it ∈ menuItems := by
  unfold fuzzyPass at h
  rcases Option.bind_eq_some.mp h with ⟨nm, _, hfind⟩
  exact List.mem_of_find?_eq_some hfind

/-- The menu resolver never selects a "Small" price-table entry, for any
input text: the detected size is never "Small", every other size-selection
branch returns "OneSize"/"Medium"/the detected size, and the first-entry
fallback is unreachable for the shipped catalog. -/
theorem match_never_small (text : String) (r : MenuItem × Nat × String)
    (h : match_menu_item text = some r) : r.2.2 ≠ "Small" := by
  simp only [match_menu_item] at h
  cases hf : fuzzyPass (stripL text.data) with
  | some it =>
    simp only [hf] at h
    have hmo := menu_items_priced it (fuzzyPass_mem _ _ hf)
    cases hs : detectSize (stripL text.data) with
    | some sz =>
      simp only [hs] at h
      rcases resolveWithSize_key it sz r hmo h with hk | hk | hk
      · rw [hk]
        intro heq
        exact detectSize_ne_small (stripL text.data) (heq ▸ hs)
      · rw [hk]
        decide
      · rw [hk]
        decide
    | none =>
      simp only [hs] at h
      rcases resolveNoSize_key it r hmo h with hk | hk <;> rw [hk] <;> decide
  | none =>
    simp only [hf] at h
    cases hfind : menuItems.find?
        (fun it => substrIn (lowerL it.name.data) (lowerL (stripL text.data))) with
    | some it =>
      simp only [hfind] at h
      have hmo := menu_items_priced it (List.mem_of_find?_eq_some hfind)
      rcases resolveFallback_key it r hmo h with hk | hk <;> rw [hk] <;> decide
    | none =>
      simp only [hfind] at h
      exact Option.noConfusion h

/-- Amended C2: for each of the three pizza items (the items with
Small/Medium/Large price tables), the exact item name plus a size word
resolves to that item and its exact price for the tokens "Large", "large",
"Medium" and "medium"; but the Small entry is unreachable for every input:
the size scan tests "L"/"l" before "Small"/"small" and the letter occurs
inside the word itself (in any casing), so the detected size is never
"Small", and the resolver never returns an item's Small price-table entry
for any text whatsoever (texts naming Small get the Medium fallback price
instead, as the counterexample shows). -/
theorem menu_size_token_amended :
    (match_menu_item "Chicken Tikka Pizza Large" = some (ctpItem, 950, "Large") ∧
     match_menu_item "Chicken Tikka Pizza large" = some (ctpItem, 950, "Large") ∧
     match_menu_item "Pepperoni Pizza Large" = some (pepItem, 1000, "Large") ∧
     match_menu_item "Pepperoni Pizza large" = some (pepItem, 1000, "Large") ∧
     match_menu_item "Margherita Pizza Large" = some (margItem, 800, "Large") ∧
     match_menu_item "Margherita Pizza large" = some (margItem, 800, "Large") ∧
     match_menu_item "Chicken Tikka Pizza Medium" = some (ctpItem, 650, "Medium") ∧
     match_menu_item "Chicken Tikka Pizza medium" = some (ctpItem, 650, "Medium") ∧
     match_menu_item "Pepperoni Pizza Medium" = some (pepItem, 700, "Medium") ∧
     match_menu_item "Pepperoni Pizza medium" = some (pepItem, 700, "Medium") ∧
     match_menu_item "Margherita Pizza Medium" = some (margItem, 550, "Medium") ∧
     match_menu_item "Margherita Pizza medium" = some (margItem, 550, "Medium")) ∧
    (∀ t : List Char, detectSize t ≠ some "Small") ∧
    (∀ (text : String) (r : MenuItem × Nat × String),
      match_menu_item text = some r → r.2.2 ≠ "Small") :=
  ⟨⟨by decide, by decide, by decide, by decide, by decide, by decide, by decide, by decide,
    by decide, by decide, by decide, by decide⟩,
   detectSize_ne_small, match_never_small⟩

/-- Witness for the amended C2: the universal parts exercised at the
counterexample text ("Medium", not "Small", is what that text resolves
to). -/
theorem menu_size_token_amended_witness :
    detectSize (stripL "Chicken Tikka Pizza Small".data) ≠ some "Small" ∧
    ("Medium" : String) ≠ "Small" :=
  ⟨menu_size_token_amended.2.1 (stripL "Chicken Tikka Pizza Small".data),
   menu_size_token_amended.2.2 "Chicken Tikka Pizza Small" (ctpItem, 650, "Medium")
     (by decide)⟩

/-! ## Claim C9 - the substring fallback and size resolution -/

/-- Counterexample to C9: on a text where no catalog name clears the fuzzy
threshold, a size ("Large") is detected and the contained item has a Large
price, the fallback nevertheless returns the Medium price - the substring
fallback never consults the detected size (and tries Medium before
OneSize, unlike the step-3 rule the claim describes). -/
theorem menu_fallback_cex :
    fuzzyPass (stripL c9text.data) = none ∧
    detectSize (stripL c9text.data) = some "Large" ∧
    assocPrice ctpItem.prices "Large" = some 950 ∧
    match_menu_item c9text = some (ctpItem, 650, "Medium") ∧
    ¬(((650 : Nat), "Medium") = ((950 : Nat), "Large")) :=
  ⟨by decide, by decide, by decide, by decide, by decide⟩

/-- Amended C9: when no catalog name fuzzy-matches above the threshold, the
resolver does fall back to a case-insensitive substring containment check
before returning NotFound, but the fallback applies a fixed resolution that
ignores the detected size entirely: Medium if present, else OneSize, else
the first price-table entry. -/
theorem menu_fallback_amended (text : String) (it : MenuItem)
    (h1 : fuzzyPass (stripL text.data) = none)
    (h2 : menuItems.find?
        (fun i => substrIn (lowerL i.name.data) (lowerL (stripL text.data))) = some it) :
    match_menu_item text = resolveFallback it := by
  simp only [match_menu_item, h1, h2]

/-- Witness for the amended C9 at the padded text. -/
theorem menu_fallback_amended_witness :
    match_menu_item c9text = resolveFallback ctpItem :=
  menu_fallback_amended c9text ctpItem (by decide) (by decide)

/-! ## Claim C8 - the exact "menu" message -/

/-- Claim C8 (code bug): a message whose body is exactly "menu" never
reaches the catalog-rendering rule.  Rule 1 tests its keywords by substring
containment and its list contains "menu", so the body "menu" matches rule 1
and is answered with the order-intent usage prompt (whose own text tells
the customer to "type MENU to see options").  The same holds for
"show menu", making the rule-2 catalog branch unreachable dead code. -/
theorem menu_responds_order_prompt (ss : List (String × Session)) (db : List Order)
    (u fresh now : String) :
    whatsapp_webhook ss db u "menu" fresh now = ⟨ss, db, [(u, .orderPrompt)], [], none⟩ ∧
    whatsapp_webhook ss db u "show menu" fresh now = ⟨ss, db, [(u, .orderPrompt)], [], none⟩ ∧
    Reply.orderPrompt ≠ Reply.menuText :=
  ⟨rfl, rfl, by decide⟩

/-! ## Claim C10 - routing degrades instead of raising -/

/-- Counterexample to C10: a session with a non-empty cart but no cached
subtotal (the customer never typed "checkout") receiving "pickup" raises
KeyError on `sess['subtotal']` - routing aborts with no reply instead of
completing with one. -/
theorem pickup_no_subtotal_cex :
    whatsapp_webhook [("u", { cart := some [friesLine] })] [] "u" "pickup" "F" "T" =
      ⟨[("u", { cart := some [friesLine] })], [], [], [], some .keyError⟩ := by
  decide

/-- Amended C10: the empty-cart guards do degrade to a guiding reply - a
"pickup" from a sender with no session, a missing cart key, or an empty
cart returns guidance and changes nothing - and a non-empty cart WITH a
cached subtotal completes the pickup order; but a non-empty cart without a
cached subtotal raises KeyError, so routing does not always complete
without raising. -/
theorem pickup_routing (ss : List (String × Session)) (db : List Order) (u fresh now : String) :
    (getSession ss u = none →
      whatsapp_webhook ss db u "pickup" fresh now = ⟨ss, db, [(u, .cartEmptyPickup)], [], none⟩) ∧
    (∀ s : Session, getSession ss u = some s → s.cart = none →
      whatsapp_webhook ss db u "pickup" fresh now = ⟨ss, db, [(u, .cartEmptyPickup)], [], none⟩) ∧
    (∀ s : Session, getSession ss u = some s → s.cart = some [] →
      whatsapp_webhook ss db u "pickup" fresh now = ⟨ss, db, [(u, .cartEmptyPickup)], [], none⟩) ∧
    (∀ (s : Session) (i : CartItem) (rest : List CartItem),
      getSession ss u = some s → s.cart = some (i :: rest) → s.subtotal = none →
      whatsapp_webhook ss db u "pickup" fresh now = ⟨ss, db, [], [], some .keyError⟩) ∧
    (∀ (s : Session) (i : CartItem) (rest : List CartItem) (sub : Nat),
      getSession ss u = some s → s.cart = some (i :: rest) → s.subtotal = some sub →
      db.any (fun r => r.order_id == "PH-" ++ fresh) = false →
      whatsapp_webhook ss db u "pickup" fresh now =
        ⟨popSession ss u,
         db ++ [{ order_id := "PH-" ++ fresh, customer_phone := u, customer_name := s.name,
                  items := i :: rest, subtotal := sub, delivery_charges := 0, total := sub,
                  payment_method := "cod", payment_status := "pending", status := "confirmed",
                  address := some "PICKUP", lat := none, lng := none, created_at := now,
                  verified_at := none, screenshot_path := none }],
         [(u, .pickupConfirmed ("PH-" ++ fresh))],
         [⟨"PH-" ++ fresh, u, i :: rest, some "PICKUP", sub⟩], none⟩) := by
  refine ⟨?_, ?_, ?_, ?_, ?_⟩
  · intro h
    simp only [whatsapp_webhook, h]
    rfl
  · intro s h hc
    simp only [whatsapp_webhook, h, hc]
    rfl
  · intro s h hc
    simp only [whatsapp_webhook, h, hc]
    rfl
  · intro s i rest h hc hs
    simp only [whatsapp_webhook, h, hc, hs]
    rfl
  · intro s i rest sub h hc hs hp
    simp only [whatsapp_webhook, h, hc, hs, persist_order_to_db, hp, notify_rider]
    rfl

/-- Witness for the amended C10: the no-session guidance case and the
checked-out pickup case, both concrete. -/
theorem pickup_routing_witness :
    whatsapp_webhook [] [] "u" "pickup" "F" "T" = ⟨[], [], [("u", .cartEmptyPickup)], [], none⟩ ∧
    whatsapp_webhook [("u", { cart := some [friesLine], subtotal := some 120 })] [] "u" "pickup"
        "F" "T" =
      ⟨[], [{ order_id := "PH-F", customer_phone := "u", customer_name := none,
              items := [friesLine], subtotal := 120, delivery_charges := 0, total := 120,
              payment_method := "cod", payment_status := "pending", status := "confirmed",
              address := some "PICKUP", lat := none, lng := none, created_at := "T",
              verified_at := none, screenshot_path := none }],
       [("u", .pickupConfirmed "PH-F")], [⟨"PH-F", "u", [friesLine], some "PICKUP", 120⟩],
       none⟩ :=
  ⟨(pickup_routing [] [] "u" "F" "T").1 rfl,
   (pickup_routing [("u", { cart := some [friesLine], subtotal := some 120 })] [] "u" "F"
       "T").2.2.2.2 { cart := some [friesLine], subtotal := some 120 } friesLine [] 120
     rfl rfl rfl rfl⟩

/-! ## Claim C4 - the total invariant -/

/-- The order table after one routed message is either unchanged or extended
by exactly one new order satisfying `total = subtotal + delivery_charges`
(the pickup and online branches are the only two that persist). -/
theorem route_db_shape (ss : List (String × Session)) (db : List Order)
    (u t f n : String) :
    (whatsapp_webhook ss db u t f n).db = db ∨
    ∃ x : Order, x.total = x.subtotal + x.delivery_charges ∧
      (whatsapp_webhook ss db u t f n).db = db ++ [x] := by
  have key : ∀ ro : RouteOut, whatsapp_webhook ss db u t f n = ro →
      ro.db = db ∨ ∃ x : Order, x.total = x.subtotal + x.delivery_charges ∧
        ro.db = db ++ [x] := by
    intro ro hro
    simp only [whatsapp_webhook] at hro
    cases h1 : kwGreeting (lowerL t.data)
    case true => rw [if_pos h1] at hro; exact Or.inl (by rw [← hro]; try rfl)
    rw [if_neg (by simp [h1])] at hro
    cases h2 : kwMenu (lowerL t.data)
    case true => rw [if_pos h2] at hro; exact Or.inl (by rw [← hro]; try rfl)
    rw [if_neg (by simp [h2])] at hro
    cases h3 : kwItem (lowerL t.data)
    case true =>
      rw [if_pos h3] at hro
      cases hm : match_menu_item t
      case none => rw [hm] at hro; exact Or.inl (by rw [← hro]; try rfl)
      case some v =>
        obtain ⟨it, price, size⟩ := v
        rw [hm] at hro
        cases hgs : getSession ss u
        case none => rw [hgs] at hro; exact Or.inl (by rw [← hro]; try rfl)
        case some s =>
          rw [hgs] at hro
          simp only [Option.getD_some] at hro
          cases hc : s.cart
          case none => rw [hc] at hro; exact Or.inl (by rw [← hro]; try rfl)
          case some c => rw [hc] at hro; exact Or.inl (by rw [← hro]; try rfl)
    rw [if_neg (by simp [h3])] at hro
    cases h4 : kwCheckout (lowerL t.data)
    case true =>
      rw [if_pos h4] at hro
      cases hgs : getSession ss u
      case none => rw [hgs] at hro; exact Or.inl (by rw [← hro]; try rfl)
      case some s =>
        rw [hgs] at hro
        dsimp only at hro
        cases hc : s.cart
        case none => rw [hc] at hro; exact Or.inl (by rw [← hro]; try rfl)
        case some c =>
          rw [hc] at hro
          cases c
          case nil => exact Or.inl (by rw [← hro]; try rfl)
          case cons i rest => exact Or.inl (by rw [← hro]; try rfl)
    rw [if_neg (by simp [h4])] at hro
    cases h5 : kwCod (lowerL t.data)
    case true =>
      rw [if_pos h5] at hro
      cases hgs : getSession ss u
      case none => rw [hgs] at hro; exact Or.inl (by rw [← hro]; try rfl)
      case some s =>
        rw [hgs] at hro
        dsimp only at hro
        cases hce : s.cart.getD [] == []
        case true => rw [if_pos hce] at hro; exact Or.inl (by rw [← hro]; try rfl)
        case false =>
          rw [if_neg (by simp [hce])] at hro
          exact Or.inl (by rw [← hro]; try rfl)
    rw [if_neg (by simp [h5])] at hro
    cases h6 : kwPickup (lowerL t.data)
    case true =>
      rw [if_pos h6] at hro
      cases hgs : getSession ss u
      case none => rw [hgs] at hro; exact Or.inl (by rw [← hro]; try rfl)
      case some s =>
        rw [hgs] at hro
        dsimp only at hro
        cases hce : s.cart.getD [] == []
        case true => rw [if_pos hce] at hro; exact Or.inl (by rw [← hro]; try rfl)
        case false =>
          rw [if_neg (by simp [hce])] at hro
          cases hsub : s.subtotal
          case none => rw [hsub] at hro; exact Or.inl (by rw [← hro]; try rfl)
          case some sub =>
            rw [hsub] at hro
            dsimp only at hro
            split at hro
            · exact Or.inl (by rw [← hro]; try rfl)
            · refine Or.inr ⟨_, ?_,
                by rw [← hro]; exact ((persist_ok_iff _ _ _).mp (by assumption)).2⟩
              simp
    rw [if_neg (by simp [h6])] at hro
    cases h7 : kwAddress (lowerL t.data) (((getSession ss u).map (fun s => s.awaiting_address)).getD false)
    case true =>
      rw [if_pos h7] at hro
      cases hdc : calculate_delivery_charge zonesDefault t
      case none => rw [hdc] at hro; exact Or.inl (by rw [← hro]; try rfl)
      case some p =>
        obtain ⟨dc, zone⟩ := p
        rw [hdc] at hro
        exact Or.inl (by rw [← hro]; try rfl)
    rw [if_neg (by simp [h7])] at hro
    cases h8 : kwOnline (lowerL t.data)
    case true =>
      rw [if_pos h8] at hro
      cases hgs : getSession ss u
      case none => rw [hgs] at hro; exact Or.inl (by rw [← hro]; try rfl)
      case some s =>
        rw [hgs] at hro
        dsimp only at hro
        cases hce : s.cart.getD [] == []
        case true => rw [if_pos hce] at hro; exact Or.inl (by rw [← hro]; try rfl)
        case false =>
          rw [if_neg (by simp [hce])] at hro
          cases hdc0 : s.delivery_charges.getD 0 == 0
          case true => rw [if_pos hdc0] at hro; exact Or.inl (by rw [← hro]; try rfl)
          case false =>
            rw [if_neg (by simp [hdc0])] at hro
            split at hro
            · exact Or.inl (by rw [← hro]; try rfl)
            · refine Or.inr ⟨_, ?_,
                by rw [← hro]; exact ((persist_ok_iff _ _ _).mp (by assumption)).2⟩
              simp
    rw [if_neg (by simp [h8])] at hro
    cases h9 : kwUpload (lowerL t.data)
    case true => rw [if_pos h9] at hro; exact Or.inl (by rw [← hro]; try rfl)
    rw [if_neg (by simp [h9])] at hro
    cases h10 : kwTrack (lowerL t.data)
    case true => rw [if_pos h10] at hro; exact Or.inl (by rw [← hro]; try rfl)
    rw [if_neg (by simp [h10])] at hro
    cases h11 : kwOrderId t.data
    case true =>
      rw [if_pos h11] at hro
      cases hlo : lookupOrder db (String.mk (stripL t.data))
      case none => rw [hlo] at hro; exact Or.inl (by rw [← hro]; try rfl)
      case some o => rw [hlo] at hro; exact Or.inl (by rw [← hro]; try rfl)
    rw [if_neg (by simp [h11])] at hro
    exact Or.inl (by rw [← hro]; try rfl)
  exact key _ rfl

/-- A map that preserves `order_id` commutes with lookup. -/
theorem lookup_map_presId (db : List Order) (g : Order → Order) (oid : String)
    (hg : ∀ r, (g r).order_id = r.order_id) :
    lookupOrder (db.map g) oid = (lookupOrder db oid).map g := by
  induction db with
  | nil => rfl
  | cons a tl ih =>
    by_cases h : a.order_id = oid
    · simp [lookupOrder, List.find?_cons_of_pos, h, hg]
    · simp only [List.map_cons, lookupOrder] at *
      rw [List.find?_cons_of_neg _ (by simp [hg, h]), List.find?_cons_of_neg _ (by simp [h])]
      exact ih

/-- Appending a consistent row preserves the invariant. -/
theorem inv_append (db : List Order) (x : Order) (h : dbTotalsConsistent db)
    (hx : x.total = x.subtotal + x.delivery_charges) : dbTotalsConsistent (db ++ [x]) := by
  intro o ho
  rcases List.mem_append.mp ho with h1 | h1
  · exact h o h1
  · rw [List.mem_singleton.mp h1]
    exact hx

/-- A row transform preserving the money fields preserves the invariant. -/
theorem inv_map (db : List Order) (g : Order → Order)
    (hg : ∀ r, (g r).total = r.total ∧ (g r).subtotal = r.subtotal ∧
      (g r).delivery_charges = r.delivery_charges)
    (h : dbTotalsConsistent db) : dbTotalsConsistent (db.map g) := by
  intro o ho
  obtain ⟨r, hr, rfl⟩ := List.mem_map.mp ho
  rw [(hg r).1, (hg r).2.1, (hg r).2.2]
  exact h r hr

/-- A row transform preserving id and the frozen fields preserves lookups up
to those fields. -/
theorem frame_map (db : List Order) (g : Order → Order) (oid : String)
    (hgid : ∀ r, (g r).order_id = r.order_id)
    (hg : ∀ r, (g r).total = r.total ∧ (g r).subtotal = r.subtotal ∧
      (g r).delivery_charges = r.delivery_charges ∧ (g r).items = r.items)
    (o : Order) (h : lookupOrder db oid = some o) :
    ∃ o', lookupOrder (db.map g) oid = some o' ∧ o'.total = o.total ∧
      o'.subtotal = o.subtotal ∧ o'.delivery_charges = o.delivery_charges ∧
      o'.items = o.items := by
  refine ⟨g o, ?_, (hg o).1, (hg o).2.1, (hg o).2.2.1, (hg o).2.2.2⟩
  rw [lookup_map_presId db g oid hgid, h]
  rfl

/-- The conditional row update of `update_order_payment_status` preserves
id, money fields and items. -/
theorem gU_fields (oid ps : String) (shot : Option String) (now : String) (r : Order) :
    (if r.order_id == oid then applyPaymentUpdate r ps shot now else r).order_id = r.order_id ∧
    (if r.order_id == oid then applyPaymentUpdate r ps shot now else r).total = r.total ∧
    (if r.order_id == oid then applyPaymentUpdate r ps shot now else r).subtotal = r.subtotal ∧
    (if r.order_id == oid then applyPaymentUpdate r ps shot now else r).delivery_charges
      = r.delivery_charges ∧
    (if r.order_id == oid then applyPaymentUpdate r ps shot now else r).items = r.items := by
  by_cases hc : (r.order_id == oid) = true
  · rw [if_pos hc]
    cases shot <;> exact ⟨rfl, rfl, rfl, rfl, rfl⟩
  · rw [if_neg hc]
    exact ⟨rfl, rfl, rfl, rfl, rfl⟩

/-- The conditional row update of `verify_order`'s second UPDATE preserves
id, money fields and items. -/
theorem gC_fields (oid : String) (r : Order) :
    (if r.order_id == oid then { r with status := "confirmed" } else r).order_id = r.order_id ∧
    (if r.order_id == oid then { r with status := "confirmed" } else r).total = r.total ∧
    (if r.order_id == oid then { r with status := "confirmed" } else r).subtotal = r.subtotal ∧
    (if r.order_id == oid then { r with status := "confirmed" } else r).delivery_charges
      = r.delivery_charges ∧
    (if r.order_id == oid then { r with status := "confirmed" } else r).items = r.items := by
  by_cases hc : (r.order_id == oid) = true
  · rw [if_pos hc]
    exact ⟨rfl, rfl, rfl, rfl, rfl⟩
  · rw [if_neg hc]
    exact ⟨rfl, rfl, rfl, rfl, rfl⟩

/-- The order table after `verify_order` is the original, the failed-update
of it, or the paid-update followed by the status UPDATE. -/
theorem verify_db_eq (db : List Order) (oid : String) (b : Bool) (now : String) :
    (verify_order db oid b now).1 = db ∨
    (verify_order db oid b now).1 = update_order_payment_status db oid "failed" none now ∨
    (verify_order db oid b now).1 =
      (update_order_payment_status db oid "paid" none now).map
        (fun r => if r.order_id == oid then { r with status := "confirmed" } else r) := by
  unfold verify_order
  cases hlo : lookupOrder db oid
  · exact Or.inl rfl
  · cases b
    · exact Or.inr (Or.inl rfl)
    · right; right
      dsimp only
      rw [if_pos (rfl : true = true)]
      split <;> rfl

/-- The order table after `/order/create` is unchanged (id collision) or
extended by one consistent order. -/
theorem http_db_shape (db : List Order) (ph : String) (cn : Option String)
    (its : List CartItem) (pm : String) (dc : Nat) (ad : Option String)
    (la ln : Option Int) (f e : String) :
    (http_create_order db ph cn its pm dc ad la ln f e).1 = db ∨
    ∃ x : Order, x.total = x.subtotal + x.delivery_charges ∧
      (http_create_order db ph cn its pm dc ad la ln f e).1 = db ++ [x] := by
  have key : ∀ p : List Order × Option RiderNote,
      http_create_order db ph cn its pm dc ad la ln f e = p →
      p.1 = db ∨ ∃ x : Order, x.total = x.subtotal + x.delivery_charges ∧
        p.1 = db ++ [x] := by
    intro p hp
    simp only [http_create_order] at hp
    split at hp
    · exact Or.inl (by rw [← hp])
    · refine Or.inr ⟨_, ?_,
        by rw [← hp]; exact ((persist_ok_iff _ _ _).mp (by assumption)).2⟩
      simp
  exact key _ rfl

/-- Every operation preserves the total invariant and never changes the
`total`, `subtotal`, `delivery_charges` or `items` of an existing order. -/
theorem step_preserves (st : SysState) (op : Op) :
    (dbTotalsConsistent st.db → dbTotalsConsistent (stepOp st op).db) ∧
    (∀ oid o, lookupOrder st.db oid = some o →
      ∃ o', lookupOrder (stepOp st op).db oid = some o' ∧
        o'.total = o.total ∧ o'.subtotal = o.subtotal ∧
        o'.delivery_charges = o.delivery_charges ∧ o'.items = o.items) := by
  cases op with
  | route u t f n =>
    rcases route_db_shape st.sessions st.db u t f n with hsame | ⟨x, hx, happ⟩
    · constructor
      · intro h
        show dbTotalsConsistent (whatsapp_webhook st.sessions st.db u t f n).db
        rw [hsame]
        exact h
      · intro oid o h
        refine ⟨o, ?_, rfl, rfl, rfl, rfl⟩
        show lookupOrder (whatsapp_webhook st.sessions st.db u t f n).db oid = some o
        rw [hsame]
        exact h
    · constructor
      · intro h
        show dbTotalsConsistent (whatsapp_webhook st.sessions st.db u t f n).db
        rw [happ]
        exact inv_append _ _ h hx
      · intro oid o h
        refine ⟨o, ?_, rfl, rfl, rfl, rfl⟩
        show lookupOrder (whatsapp_webhook st.sessions st.db u t f n).db oid = some o
        rw [happ]
        exact lookup_append_of_some _ _ _ _ h
  | create ph cn its pm dc ad la ln f n =>
    rcases http_db_shape st.db ph cn its pm dc ad la ln f n with hsame | ⟨x, hx, happ⟩
    · constructor
      · intro h
        show dbTotalsConsistent (http_create_order st.db ph cn its pm dc ad la ln f n).1
        rw [hsame]
        exact h
      · intro oid o h
        refine ⟨o, ?_, rfl, rfl, rfl, rfl⟩
        show lookupOrder (http_create_order st.db ph cn its pm dc ad la ln f n).1 oid = some o
        rw [hsame]
        exact h
    · constructor
      · intro h
        show dbTotalsConsistent (http_create_order st.db ph cn its pm dc ad la ln f n).1
        rw [happ]
        exact inv_append _ _ h hx
      · intro oid o h
        refine ⟨o, ?_, rfl, rfl, rfl, rfl⟩
        show lookupOrder (http_create_order st.db ph cn its pm dc ad la ln f n).1 oid = some o
        rw [happ]
        exact lookup_append_of_some _ _ _ _ h
  | updatePayment oid ps shot n =>
    constructor
    · intro h
      exact inv_map _ _ (fun r => ⟨(gU_fields oid ps shot n r).2.1,
        (gU_fields oid ps shot n r).2.2.1, (gU_fields oid ps shot n r).2.2.2.1⟩) h
    · intro oid' o h
      exact frame_map _ _ oid' (fun r => (gU_fields oid ps shot n r).1)
        (fun r => ⟨(gU_fields oid ps shot n r).2.1, (gU_fields oid ps shot n r).2.2.1,
          (gU_fields oid ps shot n r).2.2.2.1, (gU_fields oid ps shot n r).2.2.2.2⟩) o h
  | verify oid b n =>
    have hU : ∀ (ps : String) (h : dbTotalsConsistent st.db),
        dbTotalsConsistent (update_order_payment_status st.db oid ps none n) :=
      fun ps h => inv_map _ _ (fun r => ⟨(gU_fields oid ps none n r).2.1,
        (gU_fields oid ps none n r).2.2.1, (gU_fields oid ps none n r).2.2.2.1⟩) h
    rcases verify_db_eq st.db oid b n with he | he | he
    · constructor
      · intro h
        show dbTotalsConsistent (verify_order st.db oid b n).1
        rw [he]
        exact h
      · intro oid' o h
        refine ⟨o, ?_, rfl, rfl, rfl, rfl⟩
        show lookupOrder (verify_order st.db oid b n).1 oid' = some o
        rw [he]
        exact h
    · constructor
      · intro h
        show dbTotalsConsistent (verify_order st.db oid b n).1
        rw [he]
        exact hU _ h
      · intro oid' o h
        show ∃ o', lookupOrder (verify_order st.db oid b n).1 oid' = some o' ∧
          o'.total = o.total ∧ o'.subtotal = o.subtotal ∧
          o'.delivery_charges = o.delivery_charges ∧ o'.items = o.items
        rw [he]
        exact frame_map _ _ oid' (fun r => (gU_fields oid "failed" none n r).1)
          (fun r => ⟨(gU_fields oid "failed" none n r).2.1,
            (gU_fields oid "failed" none n r).2.2.1,
            (gU_fields oid "failed" none n r).2.2.2.1,
            (gU_fields oid "failed" none n r).2.2.2.2⟩) o h
    · constructor
      · intro h
        show dbTotalsConsistent (verify_order st.db oid b n).1
        rw [he]
        exact inv_map _ _ (fun r => ⟨(gC_fields oid r).2.1, (gC_fields oid r).2.2.1,
          (gC_fields oid r).2.2.2.1⟩) (hU _ h)
      · intro oid' o h
        show ∃ o', lookupOrder (verify_order st.db oid b n).1 oid' = some o' ∧
          o'.total = o.total ∧ o'.subtotal = o.subtotal ∧
          o'.delivery_charges = o.delivery_charges ∧ o'.items = o.items
        rw [he]
        obtain ⟨o1, h1, e1, e2, e3, e4⟩ := frame_map _ _ oid'
          (fun r => (gU_fields oid "paid" none n r).1)
          (fun r => ⟨(gU_fields oid "paid" none n r).2.1,
            (gU_fields oid "paid" none n r).2.2.1,
            (gU_fields oid "paid" none n r).2.2.2.1,
            (gU_fields oid "paid" none n r).2.2.2.2⟩) o h
        obtain ⟨o2, h2, f1, f2, f3, f4⟩ := frame_map _ _ oid'
          (fun r => (gC_fields oid r).1)
          (fun r => ⟨(gC_fields oid r).2.1, (gC_fields oid r).2.2.1,
            (gC_fields oid r).2.2.2.1, (gC_fields oid r).2.2.2.2⟩) o1 h1
        exact ⟨o2, h2, by rw [f1, e1], by rw [f2, e2], by rw [f3, e3], by rw [f4, e4]⟩

/-- Amended C4: under any sequence of router and store operations, every
persisted order keeps `total = subtotal + delivery_charges` (the stored
fields), and an order, once created, never has its `total`, `subtotal`,
`delivery_charges` or frozen `items` modified.  What does NOT hold is the
claim's recomputation property: the stored `subtotal` need not equal the sum
of the frozen items' line totals (see the counterexample). -/
theorem totals_invariant (ops : List Op) (st : SysState)
    (hInv : dbTotalsConsistent st.db) :
    dbTotalsConsistent (runOps ops st).db ∧
    (∀ oid o, lookupOrder st.db oid = some o →
      ∃ o', lookupOrder (runOps ops st).db oid = some o' ∧
        o'.total = o.total ∧ o'.subtotal = o.subtotal ∧
        o'.delivery_charges = o.delivery_charges ∧ o'.items = o.items) := by
  induction ops generalizing st with
  | nil => exact ⟨hInv, fun oid o h => ⟨o, h, rfl, rfl, rfl, rfl⟩⟩
  | cons op rest ih =>
    obtain ⟨h1, h2⟩ := step_preserves st op
    have ihh := ih (stepOp st op) (h1 hInv)
    refine ⟨ihh.1, fun oid o h => ?_⟩
    obtain ⟨o1, ho1, e1, e2, e3, e4⟩ := h2 oid o h
    obtain ⟨o2, ho2, f1, f2, f3, f4⟩ := ihh.2 oid o1 ho1
    exact ⟨o2, ho2, by rw [f1, e1], by rw [f2, e2], by rw [f3, e3], by rw [f4, e4]⟩

/-- Counterexample to C4: add Fries (Rs 120), checkout (caches subtotal
120), add a second Fries (the cart changes but the cached subtotal is not
updated), then pickup.  The persisted order has `total = 120` while
recomputing from its frozen items gives `lineTotal items + delivery_fee =
240` - recomputation does not reproduce the stored total. -/
theorem totals_drift_cex :
    (runOps c4ops ⟨[], []⟩).db =
      [⟨"PH-A4", "u", none, [friesLine, friesLine], 120, 0, 120, "cod", "pending", "confirmed",
        some "PICKUP", none, none, "t4", none, none⟩] ∧
    lineTotal [friesLine, friesLine] + 0 = 240 ∧ (240 : Nat) ≠ 120 := by
  have e1 : stepOp ⟨[], []⟩ (Op.route "u" "Fries" "A1" "t1") =
      ⟨[("u", { cart := some [friesLine] })], []⟩ := by decide
  have e2 : stepOp ⟨[("u", { cart := some [friesLine] })], []⟩
      (Op.route "u" "checkout" "A2" "t2") =
      ⟨[("u", { cart := some [friesLine], subtotal := some 120 })], []⟩ := by decide
  have e3 : stepOp ⟨[("u", { cart := some [friesLine], subtotal := some 120 })], []⟩
      (Op.route "u" "Fries" "A3" "t3") =
      ⟨[("u", { cart := some [friesLine, friesLine], subtotal := some 120 })], []⟩ := by decide
  have e4 : stepOp ⟨[("u", { cart := some [friesLine, friesLine], subtotal := some 120 })], []⟩
      (Op.route "u" "pickup" "A4" "t4") =
      ⟨[], [⟨"PH-A4", "u", none, [friesLine, friesLine], 120, 0, 120, "cod", "pending",
        "confirmed", some "PICKUP", none, none, "t4", none, none⟩]⟩ := by decide
  refine ⟨?_, by decide, by decide⟩
  show (runOps c4ops ⟨[], []⟩).db = _
  rw [show runOps c4ops ⟨[], []⟩ =
    stepOp (stepOp (stepOp (stepOp ⟨[], []⟩ (Op.route "u" "Fries" "A1" "t1"))
      (Op.route "u" "checkout" "A2" "t2")) (Op.route "u" "Fries" "A3" "t3"))
      (Op.route "u" "pickup" "A4" "t4") from rfl]
  rw [e1, e2, e3, e4]

/-- Witness for the amended C4 at a concrete store and operation list. -/
theorem totals_invariant_witness :
    dbTotalsConsistent (runOps c4wOps ⟨[], [orderA]⟩).db ∧
    (∃ o', lookupOrder (runOps c4wOps ⟨[], [orderA]⟩).db "PH-1" = some o' ∧
      o'.total = orderA.total ∧ o'.subtotal = orderA.subtotal ∧
      o'.delivery_charges = orderA.delivery_charges ∧ o'.items = orderA.items) := by
  have h := totals_invariant c4wOps ⟨[], [orderA]⟩
    (by intro o ho; rw [List.mem_singleton.mp ho]; rfl)
  exact ⟨h.1, h.2 "PH-1" orderA rfl⟩

end PizzaHome
